import Mathlib

/-! harmony: capability detection, overload dispatch and the `monas` pipeline

A verification development for `include/harmony.hpp`.

The header consists of three customization point objects (`unwrap`, `validate`,
`unit`), each an overload set of constrained `operator()` templates, of the
concepts derived from them, and of the class template `monas` with its chaining
`operator|`.

The embedding has two layers.

* Static layer.  A C++ type is described by `CppType`; the constraint of every
  overload is a Boolean function of that description (`unwrap_impl.viable`, ...)
  and a call expression is resolved by `resolve`.
* Dynamic layer.  The run-time meaning of the structural operations of a type
  (`*t`, `t.value()`, `bool(t)`, ...) is supplied by a `Sem` record; the bodies
  of the overloads and of the members of `monas` are evaluated against it in
  the `Except Failure` monad.
-/

namespace harmony

/-! ## Static layer: types, constraints and overload resolution -/

/-- Structural facts about a class or scalar type `T`, one per requirement
that the constraints of the header inspect. -/
structure Members where
  /-- `requires(const T& t) { {*t} -> not_void; }` -/
  deref : Bool
  /-- `requires(T& t) { {t.value()} -> not_void; }` -/
  value : Bool
  /-- `std::ranges::range<T>` -/
  range : Bool
  /-- `requires(const T& t) { bool(t); }` -/
  to_bool : Bool
  /-- `requires(const T& t) { {t.has_value()} -> std::same_as<bool>; }` -/
  has_value : Bool
  /-- `requires(const T& t) { {std::ranges::empty(t)} -> std::same_as<bool>; }` -/
  empty : Bool
  /-- `return *t;` with `t` of type `T&` can initialise the declared return
  type `auto&` (lines 36-37): `*t` is an lvalue; false for an `operator*` that
  returns an object by value -/
  deref_lvalue : Bool
  /-- `return t.value();` with `t` of type `T&` can initialise the declared
  return type `auto&` (lines 44-45): `t.value()` is an lvalue -/
  value_lvalue : Bool
  deriving DecidableEq, Repr

/-- Object types: raw pointers `U*`, arrays `U[N]` and class or scalar types. -/
inductive CppType where
  | pointer (pointee : CppType)
  | array (elem : CppType)
  | object (m : Members)
  deriving DecidableEq, Repr

/-- `std::is_pointer_v<T>` -/
def is_pointer_v : CppType → Bool
  | .pointer _ => true
  | _ => false

/-- Template argument deduced for a by-value parameter `T t` from an lvalue
argument of the given type: arrays decay to pointers. -/
def decay : CppType → CppType
  | .array e => .pointer e
  | t => t

/-- Concept `weakly_indirectly_readable<T>` (lines 16-19): `*t` is well-formed
on `const T&` and is not `void`, whatever its value category.  Built in for
pointers, and for arrays through array-to-pointer conversion. -/
def weakly_indirectly_readable : CppType → Bool
  | .pointer _ => true
  | .array _ => true
  | .object m => m.deref

/-- Requirement `requires(T& t) { {t.value()} -> not_void; }` (line 42): only a
class type has members. -/
def has_value_access : CppType → Bool
  | .object m => m.value
  | _ => false

/-- Whether `*t` on `T&` is an lvalue; built-in indirection always is. -/
def deref_is_lvalue : CppType → Bool
  | .pointer _ => true
  | .array _ => true
  | .object m => m.deref_lvalue

/-- Whether `t.value()` on `T&` is an lvalue. -/
def value_is_lvalue : CppType → Bool
  | .object m => m.value_lvalue
  | _ => false

/-- `std::ranges::range<T>`: arrays are ranges, pointers are not. -/
def ranges_range : CppType → Bool
  | .pointer _ => false
  | .array _ => true
  | .object m => m.range

/-- Concept `boolean_convertible<T>` (lines 87-90): `bool(t)` is well-formed on
`const T&`.  Pointers (and arrays, after decay) convert to `bool`. -/
def boolean_convertible : CppType → Bool
  | .pointer _ => true
  | .array _ => true
  | .object m => m.to_bool

/-- Requirement `{t.has_value()} -> std::same_as<bool>` (line 106). -/
def has_presence_query : CppType → Bool
  | .object m => m.has_value
  | _ => false

/-- Requirement `{std::ranges::empty(t)} -> std::same_as<bool>` (line 114). -/
def has_empty_test : CppType → Bool
  | .pointer _ => false
  | .array _ => true
  | .object m => m.empty

/-- Outcome of overload resolution for one call expression. -/
inductive Resolution (α : Type) where
  | selected (a : α)
  | no_viable
  | ambiguous (cands : List α)
  deriving DecidableEq, Repr

/-- Overload resolution within one of the overload sets of the header.

The viable candidates are those whose constraints are satisfied.  In each of
the three overload sets the candidates bind their argument with conversion
sequences that rank equally (reference binding, or a copy after at most an
lvalue transformation), and no candidate is more specialized or more
constrained than another one: the templates differ in their type-constraints
or parameter types, and the constraints of two overloads never subsume each
other, since each one carries an atomic requirement that the other lacks.
Hence a call is well-formed exactly when a single candidate is viable. -/
def resolve {α : Type} (overloads : List α) (viable : α → Bool) : Resolution α :=
  match overloads.filter viable with
  | [] => .no_viable
  | [a] => .selected a
  | l => .ambiguous l

/-- Whether a resolution picked a candidate. -/
def Resolution.is_selected {α : Type} : Resolution α → Bool
  | .selected _ => true
  | _ => false

/-- The four `operator()` overloads of `detail::unwrap_impl`, in source order
(lines 26-31, 33-38, 40-46, 48-69). -/
inductive unwrap_impl where
  | pointer
  | dereference
  | value_access
  | range_view
  deriving DecidableEq, Repr

/-- The overload set of `unwrap_impl`. -/
def unwrap_impl.overloads : List unwrap_impl :=
  [.pointer, .dereference, .value_access, .range_view]

/-- Constraint of each overload of `unwrap_impl` for an lvalue argument of type
`T`.  The first overload takes `T t` by value, so its `T` is the decayed type;
the other three take `T& t`. -/
def unwrap_impl.viable (T : CppType) : unwrap_impl → Bool
  | .pointer => is_pointer_v (decay T)
  | .dereference => weakly_indirectly_readable T && !is_pointer_v T
  | .value_access => !weakly_indirectly_readable T && has_value_access T
  | .range_view => ranges_range T

/-- Value category of the result: the first three overloads return `auto&`,
the range overload returns the local `wrap_view` by value (`auto`). -/
def unwrap_impl.returns_lvalue : unwrap_impl → Bool
  | .range_view => false
  | _ => true

/-- Whether the body of an overload can be instantiated for `T`.  The
dereference and `value()` overloads return `auto&` (lines 36-37, 44-45), which
binds only an lvalue; the constraints do not ask for one, so an overload can be
selected and then fail to compile.  The pointer overload returns the lvalue of
a built-in indirection, the range overload returns `wrap_view` by value. -/
def unwrap_impl.instantiates (T : CppType) : unwrap_impl → Bool
  | .pointer => true
  | .dereference => deref_is_lvalue T
  | .value_access => value_is_lvalue T
  | .range_view => true

/-- Resolution of the call `harmony::unwrap(m)` for an lvalue `m` of type `T`. -/
def unwrap_resolve (T : CppType) : Resolution unwrap_impl :=
  resolve unwrap_impl.overloads (unwrap_impl.viable T)

/-- Concept `unwrappable<T>` (lines 82-85): `unwrap(m)` is well-formed; its
result is a reference or a `wrap_view`, never `void`.  The return types are
deduced, so the body of the selected overload is instantiated: when it does not
compile the program is ill-formed (an error, not an unsatisfied constraint),
and nothing that names `unwrappable<T>` is accepted; the predicate is false
then as well. -/
def unwrappable (T : CppType) : Bool :=
  match unwrap_resolve T with
  | .selected s => s.instantiates T
  | _ => false

/-- The three `operator()` overloads of `detail::validate_impl`, in source
order (lines 97-102, 104-110, 112-118). -/
inductive validate_impl where
  | bool_conversion
  | has_value
  | not_empty
  deriving DecidableEq, Repr

/-- The overload set of `validate_impl`. -/
def validate_impl.overloads : List validate_impl :=
  [.bool_conversion, .has_value, .not_empty]

/-- Constraint of each overload of `validate_impl`; all three are declared
`template<unwrappable T>` and take `const T&`. -/
def validate_impl.viable (T : CppType) : validate_impl → Bool
  | .bool_conversion => unwrappable T && boolean_convertible T
  | .has_value => unwrappable T && (!boolean_convertible T && has_presence_query T)
  | .not_empty => unwrappable T && (!boolean_convertible T && has_empty_test T)

/-- Resolution of the call `harmony::validate(m)`. -/
def validate_resolve (T : CppType) : Resolution validate_impl :=
  resolve validate_impl.overloads (validate_impl.viable T)

/-- Concept `maybe<T>` (lines 131-136); every overload of `validate` returns
`bool`. -/
def maybe (T : CppType) : Bool :=
  unwrappable T && (validate_resolve T).is_selected

/-- Concept `list<T>` (lines 138-139). -/
def list (T : CppType) : Bool :=
  maybe T && ranges_range T

/-- `std::assignable_from<traits::unwrap_raw_t<M>, V>` (lines 157, 163).
`unwrap_raw_t<M>` is the declared type of `unwrap(m)`; `std::assignable_from`
demands that its first argument is an lvalue reference type, which the
`wrap_view` prvalue of the range overload is not.  The flag `payload_accepts`
tells whether an lvalue of the payload type can be assigned a `V`. -/
def payload_assignable (T : CppType) (payload_accepts : Bool) : Bool :=
  match unwrap_resolve T with
  | .selected s => s.returns_lvalue && payload_accepts
  | _ => false

/-- The two `operator()` overloads of `detail::unit_impl` (lines 156-160,
162-167). -/
inductive unit_impl where
  | payload
  | whole
  deriving DecidableEq, Repr

/-- The overload set of `unit_impl`. -/
def unit_impl.overloads : List unit_impl :=
  [.payload, .whole]

/-- Constraint of each overload of `unit_impl` for container type `T` and a new
value of type `V`; `whole_accepts` is `std::assignable_from<M&, V>`. -/
def unit_impl.viable (T : CppType) (payload_accepts whole_accepts : Bool) : unit_impl → Bool
  | .payload => unwrappable T && payload_assignable T payload_accepts
  | .whole => unwrappable T && (!payload_assignable T payload_accepts && whole_accepts)

/-- Resolution of the call `harmony::unit(m, v)`. -/
def unit_resolve (T : CppType) (payload_accepts whole_accepts : Bool) : Resolution unit_impl :=
  resolve unit_impl.overloads (unit_impl.viable T payload_accepts whole_accepts)

/-- Concept `rewrappable<M, V>` (lines 179-184). -/
def rewrappable (T : CppType) (payload_accepts whole_accepts : Bool) : Bool :=
  unwrappable T && (unit_resolve T payload_accepts whole_accepts).is_selected

/-! ## Dynamic layer: evaluation of the overload bodies -/

/-- The function or template a diagnostic refers to. -/
inductive Callee where
  | unwrap
  | validate
  | unit
  | monas
  | monas_star
  | monas_bool
  | monas_pipe
  deriving DecidableEq, Repr

/-- Compile-time rejections. -/
inductive Diagnostic where
  /-- no overload of the callee has its constraints satisfied -/
  | no_viable (f : Callee)
  /-- several overloads are viable and none is better -/
  | ambiguous (f : Callee)
  /-- the constraint on the template itself is not satisfied -/
  | unsatisfied (f : Callee)
  /-- a non-const lvalue reference (`auto&`) cannot bind to a prvalue -/
  | binds_rvalue (f : Callee)
  deriving DecidableEq, Repr

/-- Ways in which evaluating an expression fails to produce a value. -/
inductive Failure where
  /-- the program is ill-formed: nothing is ever executed -/
  | ill_formed (d : Diagnostic)
  /-- undefined behaviour: null dereference, access to an absent payload -/
  | undefined
  /-- an exception leaves the expression -/
  | thrown (e : Nat)
  /-- an exception reached a `noexcept` boundary: `std::terminate` -/
  | terminated
  deriving DecidableEq, Repr

/-- Result of `unwrap(m)`: the payload seen through the returned reference
(first three overloads), or the `wrap_view` aggregate with its members `it`
and `se` (range overload). -/
inductive Extracted (P I S : Type) where
  | ref (x : P)
  | view (it : I) (se : S)
  deriving DecidableEq, Repr

/-- Run-time meaning of the structural operations of a type whose objects (with
whatever they refer to) are the states `M`.  A field is consulted only when
the static description says that the operation exists. -/
structure Sem (M P I S : Type) where
  /-- the value read through `*t` -/
  star : M → Except Failure P
  /-- the state after `*t = v` -/
  star_assign : M → P → Except Failure M
  /-- the value read through `t.value()` -/
  value : M → Except Failure P
  /-- the state after `t.value() = v` -/
  value_assign : M → P → Except Failure M
  /-- the iterator `std::ranges::begin(t)` -/
  range_begin : M → Except Failure I
  /-- the sentinel `std::ranges::end(t)` -/
  range_end : M → Except Failure S
  /-- the value of `bool(t)` -/
  to_bool : M → Except Failure Bool
  /-- the value of `t.has_value()` -/
  has_value : M → Except Failure Bool
  /-- the value of `std::ranges::empty(t)` -/
  empty : M → Except Failure Bool

/-- Diagnostic of a call that overload resolution rejects. -/
def rejected {α β : Type} (f : Callee) : Resolution α → Except Failure β
  | .ambiguous _ => .error (.ill_formed (.ambiguous f))
  | _ => .error (.ill_formed (.no_viable f))

/-- Effect of a `noexcept(b)` specification on the outcome of a function. -/
def noexcept_boundary {α : Type} (b : Bool) : Except Failure α → Except Failure α
  | .error (.thrown e) => if b then .error .terminated else .error (.thrown e)
  | r => r

/-- The customization point object `harmony::unwrap` (line 76) applied to an
lvalue of type `T` in state `m`: the body of the selected overload.  The
pointer overload is declared `noexcept` unconditionally, the other three
repeat the exception specification of their body.  The dereference and
`value()` overloads return through `auto&`: when `*t` or `t.value()` is not an
lvalue the call does not compile. -/
def unwrap {M P I S : Type} (T : CppType) (sem : Sem M P I S) (m : M) :
    Except Failure (Extracted P I S) :=
  match unwrap_resolve T with
  | .selected .pointer => noexcept_boundary true do
      let x ← sem.star m
      pure (.ref x)
  | .selected .dereference =>
      if deref_is_lvalue T then do
        let x ← sem.star m
        pure (.ref x)
      else .error (.ill_formed (.binds_rvalue .unwrap))
  | .selected .value_access =>
      if value_is_lvalue T then do
        let x ← sem.value m
        pure (.ref x)
      else .error (.ill_formed (.binds_rvalue .unwrap))
  | .selected .range_view => do
      let it ← sem.range_begin m
      let se ← sem.range_end m
      pure (.view it se)
  | r => rejected .unwrap r

/-- The assignment expression `cpo::unwrap(m) = v` of line 159: a store through
the reference that the selected overload returns.  The `wrap_view` prvalue of
the range overload is not a location; `unit` never selects line 159 for it. -/
def unwrap_assign {M P I S : Type} (T : CppType) (sem : Sem M P I S) (m : M) (v : P) :
    Except Failure M :=
  match unwrap_resolve T with
  | .selected .pointer => sem.star_assign m v
  | .selected .dereference =>
      if deref_is_lvalue T then sem.star_assign m v
      else .error (.ill_formed (.binds_rvalue .unwrap))
  | .selected .value_access =>
      if value_is_lvalue T then sem.value_assign m v
      else .error (.ill_formed (.binds_rvalue .unwrap))
  | .selected .range_view => .error (.ill_formed (.binds_rvalue .unwrap))
  | r => rejected .unwrap r

/-- The customization point object `harmony::validate` (line 125). -/
def validate {M P I S : Type} (T : CppType) (sem : Sem M P I S) (m : M) :
    Except Failure Bool :=
  match validate_resolve T with
  | .selected .bool_conversion => sem.to_bool m
  | .selected .has_value => sem.has_value m
  | .selected .not_empty => do
      let e ← sem.empty m
      pure (!e)
  | r => rejected .validate r

/-- The customization point object `harmony::unit` (line 174) for a new value
of type `V`.

`payload_conv` is `some c` when an lvalue of the payload type can be assigned
a `V` (`c v` being the payload after `payload = v`), and `whole_conv` is
`some c` when `std::assignable_from<M&, V>` holds (`c v` being the container
after `m = v`). -/
def unit {M P I S V : Type} (T : CppType) (sem : Sem M P I S)
    (payload_conv : Option (V → P)) (whole_conv : Option (V → M)) (m : M) (v : V) :
    Except Failure M :=
  match unit_resolve T payload_conv.isSome whole_conv.isSome, payload_conv, whole_conv with
  | .selected .payload, some c, _ => unwrap_assign T sem m (c v)
  | .selected .whole, _, some c => pure (c v)
  | r, _, _ => rejected .unit r

/-- Member `monas::operator*` (lines 221-224).  Its declared return type is
`auto&`, which cannot be initialised from the prvalue that the range overload
of `unwrap` returns. -/
def monas_star {M P I S : Type} (T : CppType) (sem : Sem M P I S) (m : M) :
    Except Failure (Extracted P I S) :=
  match unwrap_resolve T with
  | .selected s =>
      if s.returns_lvalue then unwrap T sem m
      else .error (.ill_formed (.binds_rvalue .monas_star))
  | r => rejected .unwrap r

/-- Member `monas::operator bool` (lines 231-234), `requires maybe<bound_t>`. -/
def monas_bool {M P I S : Type} (T : CppType) (sem : Sem M P I S) (m : M) :
    Except Failure Bool :=
  if maybe T then validate T sem m
  else .error (.ill_formed (.unsatisfied .monas_bool))

/-- Compile-time part of a chain step `monas | f`: the class template needs
`unwrappable<T>`, both overloads of `operator|` need `monadic<F, bound_t>`
(the transformation is taken to be invocable on the extracted value, so this
is `rewrappable`), and instantiating the body instantiates `operator*`. -/
def pipe_check (T : CppType) (payload_accepts whole_accepts : Bool) : Except Failure Unit :=
  if !unwrappable T then .error (.ill_formed (.unsatisfied .monas))
  else if !rewrappable T payload_accepts whole_accepts then
    .error (.ill_formed (.no_viable .monas_pipe))
  else match unwrap_resolve T with
    | .selected s =>
        if s.returns_lvalue then pure ()
        else .error (.ill_formed (.binds_rvalue .monas_star))
    | r => rejected .unwrap r

/-- The statement `cpo::unit(self.m_monad, f(*self));` shared by both overloads
of `operator|` (lines 253 and 261).  Returns the new state and the arguments on
which `f` was invoked. -/
def apply_and_rebind {M P I S V : Type} (T : CppType) (sem : Sem M P I S)
    (payload_conv : Option (V → P)) (whole_conv : Option (V → M))
    (f : Extracted P I S → Except Failure V) (m : M) :
    Except Failure (M × List (Extracted P I S)) := do
  let x ← monas_star T sem m
  let r ← f x
  let m1 ← unit T sem payload_conv whole_conv m r
  pure (m1, [x])

/-- The chaining operator `operator|` of `monas` (lines 250-264): the overload
for `not maybe<bound_t>` always applies `f`, the one for `maybe<bound_t>` only
when `if (self)` succeeds.  `nothrow_r` is the value of
`std::is_nothrow_invocable_r_v<bound_t, F, traits::unwrap_t<bound_t>>` in the
`noexcept` specification.  The result is the state of the wrapped object and
the list of arguments on which `f` was invoked. -/
def monas_pipe {M P I S V : Type} (T : CppType) (sem : Sem M P I S)
    (payload_conv : Option (V → P)) (whole_conv : Option (V → M)) (nothrow_r : Bool)
    (f : Extracted P I S → Except Failure V) (m : M) :
    Except Failure (M × List (Extracted P I S)) := do
  pipe_check T payload_conv.isSome whole_conv.isSome
  noexcept_boundary nothrow_r <|
    if maybe T then do
      let present ← monas_bool T sem m
      if present then apply_and_rebind T sem payload_conv whole_conv f m
      else pure (m, [])
    else apply_and_rebind T sem payload_conv whole_conv f m

/-- A pipeline `monas | f1 | f2 | ...`: the steps from left to right, with the
invocations of all steps collected in order. -/
def monas_chain {M P I S V : Type} (T : CppType) (sem : Sem M P I S)
    (payload_conv : Option (V → P)) (whole_conv : Option (V → M)) (nothrow_r : Bool) :
    List (Extracted P I S → Except Failure V) → M →
      Except Failure (M × List (Extracted P I S))
  | [], m => pure (m, [])
  | f :: fs, m => do
      let (m1, calls1) ← monas_pipe T sem payload_conv whole_conv nothrow_r f m
      let (m2, calls2) ← monas_chain T sem payload_conv whole_conv nothrow_r fs m1
      pure (m2, calls1 ++ calls2)

/-- A container is well behaved for `T` when the reference that `unwrap`
returns denotes a location of the container: a store through it succeeds
wherever a read does, the stored value is read back, and the presence test
does not depend on what the payload is. -/
structure Lawful {M P I S : Type} (T : CppType) (sem : Sem M P I S) : Prop where
  store_defined : ∀ m x v, unwrap T sem m = .ok (.ref x) →
    ∃ m1, unwrap_assign T sem m v = .ok m1
  store_read : ∀ m v m1, unwrap_assign T sem m v = .ok m1 →
    unwrap T sem m1 = .ok (.ref v)
  store_presence : ∀ m v m1, unwrap_assign T sem m v = .ok m1 →
    validate T sem m1 = validate T sem m

/-! ## Adapted types of the end-to-end scenarios -/

/-- A scalar such as `int`: converts to `bool`, nothing else. -/
def int_type : CppType :=
  .object { deref := false, value := false, range := false,
            to_bool := true, has_value := false, empty := false,
            deref_lvalue := false, value_lvalue := false }

/-- An optional-like class: `operator*`, `value()`, `explicit operator bool`
and `has_value()`. -/
def optional_int : CppType :=
  .object { deref := true, value := true, range := false,
            to_bool := true, has_value := true, empty := false,
            deref_lvalue := true, value_lvalue := true }

/-- Operations of the optional-like class on `Option Int`: `*t` on an empty
object is undefined, `value()` on an empty object throws.  Here and below,
the fields of operations that the type does not have are never consulted and
are left undefined. -/
def optional_sem : Sem (Option Int) Int Unit Unit where
  star := fun o => match o with
    | some x => .ok x
    | none => .error .undefined
  star_assign := fun o v => match o with
    | some _ => .ok (some v)
    | none => .error .undefined
  value := fun o => match o with
    | some x => .ok x
    | none => .error (.thrown 0)
  value_assign := fun o v => match o with
    | some _ => .ok (some v)
    | none => .error (.thrown 0)
  range_begin := fun _ => .error .undefined
  range_end := fun _ => .error .undefined
  to_bool := fun o => .ok o.isSome
  has_value := fun o => .ok o.isSome
  empty := fun _ => .error .undefined

/-- The raw pointer type `int*`. -/
def int_pointer : CppType :=
  .pointer int_type

/-- A pointer variable together with the memory it points into: `addr` is
`none` for the null pointer, otherwise an index into `mem`. -/
structure PointerState where
  addr : Option Nat
  mem : List Int
  deriving DecidableEq, Repr

/-- Built-in operations of `int*`: indirection reads and writes the pointee
and never changes the pointer (null and dangling pointers are undefined);
`bool(p)` tests for null. -/
def pointer_sem : Sem PointerState Int Unit Unit where
  star := fun s => match s.addr with
    | some a => match s.mem[a]? with
      | some x => .ok x
      | none => .error .undefined
    | none => .error .undefined
  star_assign := fun s v => match s.addr with
    | some a =>
      if a < s.mem.length then .ok { s with mem := s.mem.set a v }
      else .error .undefined
    | none => .error .undefined
  value := fun _ => .error .undefined
  value_assign := fun _ _ => .error .undefined
  range_begin := fun _ => .error .undefined
  range_end := fun _ => .error .undefined
  to_bool := fun s => .ok s.addr.isSome
  has_value := fun _ => .error .undefined
  empty := fun _ => .error .undefined

/-- A sequence class such as `std::vector<int>`: `begin()`/`end()` and
`empty()`, no dereference, no `value()`, no conversion to `bool`. -/
def vector_int : CppType :=
  .object { deref := false, value := false, range := true,
            to_bool := false, has_value := false, empty := true,
            deref_lvalue := false, value_lvalue := false }

/-- Operations of the sequence class on `List Int`; iterators are positions. -/
def vector_sem : Sem (List Int) Int Nat Nat where
  star := fun _ => .error .undefined
  star_assign := fun _ _ => .error .undefined
  value := fun _ => .error .undefined
  value_assign := fun _ _ => .error .undefined
  range_begin := fun _ => .ok 0
  range_end := fun xs => .ok xs.length
  to_bool := fun _ => .error .undefined
  has_value := fun _ => .error .undefined
  empty := fun xs => .ok xs.isEmpty

/-- A class that is dereferenceable and iterable (`operator*` together with
`begin()`/`end()`), like `std::optional` since C++26. -/
def iterable_dereferenceable : CppType :=
  .object { deref := true, value := false, range := true,
            to_bool := false, has_value := false, empty := false,
            deref_lvalue := true, value_lvalue := false }

/-- A class with `value()` and `begin()`/`end()`, without `operator*`. -/
def iterable_with_value : CppType :=
  .object { deref := false, value := true, range := true,
            to_bool := false, has_value := false, empty := false,
            deref_lvalue := false, value_lvalue := true }

/-- A class with `value()`, `bool has_value() const` and `bool empty() const`,
without conversion to `bool`. -/
def query_and_empty : CppType :=
  .object { deref := false, value := true, range := false,
            to_bool := false, has_value := true, empty := true,
            deref_lvalue := false, value_lvalue := true }

/-- A range without a boolean `std::ranges::empty` on `const T&`, such as an
input-only view or `std::ranges::filter_view`: `begin()`/`end()` and nothing
else. -/
def bare_range : CppType :=
  .object { deref := false, value := false, range := true,
            to_bool := false, has_value := false, empty := false,
            deref_lvalue := false, value_lvalue := false }

/-- A class with `operator*`, `explicit operator bool` and `has_value()`, whose
objects record the two answers independently: the state is the pair
(answer of `bool(t)`, answer of `has_value()`). -/
def two_flags : CppType :=
  .object { deref := true, value := false, range := false,
            to_bool := true, has_value := true, empty := false,
            deref_lvalue := true, value_lvalue := false }

/-- Operations of `two_flags`. -/
def two_flags_sem : Sem (Bool × Bool) Int Unit Unit where
  star := fun _ => .ok 0
  star_assign := fun s _ => .ok s
  value := fun _ => .error .undefined
  value_assign := fun _ _ => .error .undefined
  range_begin := fun _ => .error .undefined
  range_end := fun _ => .error .undefined
  to_bool := fun s => .ok s.1
  has_value := fun s => .ok s.2
  empty := fun _ => .error .undefined

/-! ## Views, conversions and further adapted types -/

/-- The local aggregate `wrap_view` of the range overload of `unwrap` (lines
51-66): an iterator and a sentinel, nothing else. -/
structure wrap_view (I S : Type) where
  it : I
  se : S
  deriving DecidableEq, Repr

/-- Member `wrap_view::begin` (lines 59-61): returns `it`. -/
def wrap_view.begin {I S : Type} (w : wrap_view I S) : I :=
  w.it

/-- Member `wrap_view::end` (lines 63-65): returns `se`. -/
def wrap_view.end_ {I S : Type} (w : wrap_view I S) : S :=
  w.se

/-- The extraction result that carries a given `wrap_view`. -/
def Extracted.of_view {P I S : Type} (w : wrap_view I S) : Extracted P I S :=
  .view w.it w.se

/-- Iterator operations of a range with elements `E`: `*it`, `++it` and
`it == se`. -/
structure Cursor (I S E : Type) where
  deref : I → E
  next : I → I
  at_end : I → S → Bool

/-- The loop `for (; it != se; ++it) visit(*it);` run for at most the given
number of tests of `it != se`: the elements visited, in order, or `none` when
the end was not reached within the bound. -/
def traverse {I S E : Type} (ops : Cursor I S E) : Nat → I → S → Option (List E)
  | 0, _, _ => none
  | n + 1, it, se =>
      if ops.at_end it se then some []
      else (traverse ops n (ops.next it) se).map (fun rest => ops.deref it :: rest)

/-- Iterators of the sequence class over the storage `xs`: positions, read by
indexing, advanced by one, compared by equality. -/
def vector_cursor (xs : List Int) : Cursor Nat Nat Int where
  deref := fun i => xs.getD i 0
  next := fun i => i + 1
  at_end := fun i e => decide (i = e)

/-- The conversion operators of `monas` (lines 236-246): `operator T()` of a
reference wrapper and `operator T&()`, `operator T&&()` of an owning one all
return `m_monad`, the wrapped object itself. -/
def monas_convert {M : Type} (m : M) : M :=
  m

/-- A transformation given by a total function on the payload; it is not
invocable on a `wrap_view`. -/
def on_payload {P I S V : Type} (F : P → V) : Extracted P I S → Except Failure V
  | .ref x => .ok (F x)
  | .view _ _ => .error (.ill_formed (.no_viable .monas_pipe))

/-- A class with `operator*` only (a plain box around an `int`): extractable,
not presence-aware. -/
def boxed_int : CppType :=
  .object { deref := true, value := false, range := false,
            to_bool := false, has_value := false, empty := false,
            deref_lvalue := true, value_lvalue := false }

/-- Operations of the box on `Int`: `*t` is the content. -/
def boxed_sem : Sem Int Int Unit Unit where
  star := fun n => .ok n
  star_assign := fun _ v => .ok v
  value := fun _ => .error .undefined
  value_assign := fun _ _ => .error .undefined
  range_begin := fun _ => .error .undefined
  range_end := fun _ => .error .undefined
  to_bool := fun _ => .error .undefined
  has_value := fun _ => .error .undefined
  empty := fun _ => .error .undefined

/-- A class with `value()` only, whose `value()` throws when nothing is
stored (its objects are run with the `value` operations of `optional_sem`):
extractable, not presence-aware. -/
def value_only : CppType :=
  .object { deref := false, value := true, range := false,
            to_bool := false, has_value := false, empty := false,
            deref_lvalue := false, value_lvalue := true }

/-- A handle class around a descriptor: `int& operator*()` and an
`explicit operator bool` that is true when the descriptor is not negative.
Its presence test looks at its payload. -/
def handle_int : CppType :=
  .object { deref := true, value := false, range := false,
            to_bool := true, has_value := false, empty := false,
            deref_lvalue := true, value_lvalue := false }

/-- Operations of the handle class on `Int`. -/
def handle_sem : Sem Int Int Unit Unit where
  star := fun n => .ok n
  star_assign := fun _ v => .ok v
  value := fun _ => .error .undefined
  value_assign := fun _ _ => .error .undefined
  range_begin := fun _ => .error .undefined
  range_end := fun _ => .error .undefined
  to_bool := fun n => .ok (decide (0 ≤ n))
  has_value := fun _ => .error .undefined
  empty := fun _ => .error .undefined

/-- A proxy class whose `operator*` returns its content by value and whose
`value()` returns a reference to it. -/
def by_value_deref : CppType :=
  .object { deref := true, value := true, range := false,
            to_bool := false, has_value := false, empty := false,
            deref_lvalue := false, value_lvalue := true }

/-! ## Supporting lemmas -/

/-- The body that `unwrap` runs once the selected overload is known. -/
theorem unwrap_eq_of_selected {M P I S : Type} (T : CppType) (sem : Sem M P I S) (m : M) :
    (unwrap_resolve T = .selected .pointer →
      unwrap T sem m = noexcept_boundary true (Except.map .ref (sem.star m))) ∧
    (unwrap_resolve T = .selected .dereference → deref_is_lvalue T = true →
      unwrap T sem m = Except.map .ref (sem.star m)) ∧
    (unwrap_resolve T = .selected .value_access → value_is_lvalue T = true →
      unwrap T sem m = Except.map .ref (sem.value m)) := by
  refine ⟨fun h => ?_, fun h hl => ?_, fun h hl => ?_⟩
  · simp only [unwrap, h]
    rfl
  · simp only [unwrap, h, hl, if_true]
    rfl
  · simp only [unwrap, h, hl, if_true]
    rfl

/-- A selected dereference or `value()` overload whose expression is not an
lvalue does not compile: neither `unwrap(m)` nor anything that requires
`unwrappable<T>`. -/
theorem unwrap_rejects_prvalue {M P I S : Type} (T : CppType) (sem : Sem M P I S) (m : M) :
    (unwrap_resolve T = .selected .dereference → deref_is_lvalue T = false →
      unwrap T sem m = .error (.ill_formed (.binds_rvalue .unwrap)) ∧
      unwrappable T = false) ∧
    (unwrap_resolve T = .selected .value_access → value_is_lvalue T = false →
      unwrap T sem m = .error (.ill_formed (.binds_rvalue .unwrap)) ∧
      unwrappable T = false) := by
  refine ⟨fun h hl => ?_, fun h hl => ?_⟩ <;>
    simp [unwrap, unwrappable, unwrap_impl.instantiates, h, hl]

/-- Resolution of `unwrap` for a class type that is not a range. -/
theorem unwrap_resolve_object_not_range (d v b h e dl vl : Bool) :
    unwrap_resolve (.object ⟨d, v, false, b, h, e, dl, vl⟩) =
      if d then .selected .dereference
      else if v then .selected .value_access else .no_viable := by
  cases d <;> cases v <;> rfl

/-- A call of `unwrap` that yields a reference was resolved to one of the
overloads returning `auto&`, and the body of that overload compiles. -/
theorem unwrap_ref_selected {M P I S : Type} {T : CppType} {sem : Sem M P I S} {m : M} {x : P}
    (h : unwrap T sem m = .ok (.ref x)) :
    ∃ s, unwrap_resolve T = .selected s ∧ s.returns_lvalue = true ∧
      s.instantiates T = true := by
  unfold unwrap at h
  generalize unwrap_resolve T = res at h
  rcases res with s | _ | l
  · cases s
    · exact ⟨_, rfl, rfl, rfl⟩
    · refine ⟨_, rfl, rfl, ?_⟩
      show deref_is_lvalue T = true
      cases hl : deref_is_lvalue T
      · simp [hl] at h
      · rfl
    · refine ⟨_, rfl, rfl, ?_⟩
      show value_is_lvalue T = true
      cases hl : value_is_lvalue T
      · simp [hl] at h
      · rfl
    · exfalso
      cases hb : sem.range_begin m <;> cases he : sem.range_end m <;>
        simp [hb, he, bind, Except.bind, pure, Except.pure] at h
  · simp [rejected] at h
  · simp [rejected] at h

/-- With a reference-returning extraction and an assignable payload, `unit`
resolves to its payload overload, whatever the container itself accepts. -/
theorem unit_payload_path {M P I S V : Type} {T : CppType} (sem : Sem M P I S)
    {s : unwrap_impl} (c : V → P) (wc : Option (V → M)) (m : M) (v : V)
    (hs : unwrap_resolve T = .selected s) (hl : s.returns_lvalue = true)
    (hi : s.instantiates T = true) :
    unit_resolve T true wc.isSome = .selected .payload ∧
    unit T sem (some c) wc m v = unwrap_assign T sem m (c v) := by
  have hu : unwrappable T = true := by simp [unwrappable, hs, hi]
  have hpa : payload_assignable T true = true := by simp [payload_assignable, hs, hl]
  have hr : unit_resolve T true wc.isSome = .selected .payload := by
    simp [unit_resolve, resolve, unit_impl.overloads, unit_impl.viable, hu, hpa, List.filter]
  refine ⟨hr, ?_⟩
  simp [unit, hr]

/-- A chain step compiles when extraction returns a reference and the payload
accepts the result of the transformation. -/
theorem pipe_check_ok {T : CppType} {s : unwrap_impl} (wa : Bool)
    (hs : unwrap_resolve T = .selected s) (hl : s.returns_lvalue = true)
    (hi : s.instantiates T = true) :
    pipe_check T true wa = .ok () := by
  have hu : unwrappable T = true := by simp [unwrappable, hs, hi]
  have hpa : payload_assignable T true = true := by simp [payload_assignable, hs, hl]
  have hr : unit_resolve T true wa = .selected .payload := by
    simp [unit_resolve, resolve, unit_impl.overloads, unit_impl.viable, hu, hpa, List.filter]
  simp [pipe_check, hu, rewrappable, hr, Resolution.is_selected, hs, hl]
  rfl

/-- A chain step never compiles for a type whose extraction is the range
overload: either the result cannot be rebound, or `operator*` is ill-formed. -/
theorem pipe_check_view {T : CppType} (pa wa : Bool)
    (hs : unwrap_resolve T = .selected .range_view) :
    pipe_check T pa wa = .error (.ill_formed (.no_viable .monas_pipe)) ∨
    pipe_check T pa wa = .error (.ill_formed (.binds_rvalue .monas_star)) := by
  have hu : unwrappable T = true := by simp [unwrappable, hs, unwrap_impl.instantiates]
  cases hr : rewrappable T pa wa
  · left
    simp [pipe_check, hu, hr]
  · right
    simp [pipe_check, hu, hr, hs, unwrap_impl.returns_lvalue]

/-- Short-circuit of one step: when the chain step compiles and the presence
test is false, the state is returned as it is and `f` is not invoked. -/
theorem pipe_short_circuit {M P I S V : Type} (T : CppType) (sem : Sem M P I S)
    (pc : Option (V → P)) (wc : Option (V → M)) (nothrow_r : Bool)
    (f : Extracted P I S → Except Failure V) (m : M)
    (hc : pipe_check T pc.isSome wc.isSome = .ok ())
    (hm : maybe T = true) (hv : validate T sem m = .ok false) :
    monas_pipe T sem pc wc nothrow_r f m = .ok (m, []) := by
  simp [monas_pipe, hc, hm, monas_bool, hv, bind, Except.bind, noexcept_boundary, pure,
    Except.pure]

/-- Short-circuit of a whole pipeline over an inert value. -/
theorem chain_short_circuit {M P I S V : Type} (T : CppType) (sem : Sem M P I S)
    (pc : Option (V → P)) (wc : Option (V → M)) (nothrow_r : Bool)
    (fs : List (Extracted P I S → Except Failure V)) (m : M)
    (hc : pipe_check T pc.isSome wc.isSome = .ok ())
    (hm : maybe T = true) (hv : validate T sem m = .ok false) :
    monas_chain T sem pc wc nothrow_r fs m = .ok (m, []) := by
  induction fs with
  | nil => rfl
  | cons f fs ih =>
    simp [monas_chain, pipe_short_circuit T sem pc wc nothrow_r f m hc hm hv, ih, bind,
      Except.bind, pure, Except.pure]

/-- The optional-like class is a well-behaved container. -/
theorem optional_lawful : Lawful optional_int optional_sem := by
  have hdl : deref_is_lvalue optional_int = true := rfl
  have hres : unwrap_resolve optional_int = .selected .dereference := by decide
  have hval : validate_resolve optional_int = .selected .bool_conversion := by decide
  refine ⟨fun m x v h => ?_, fun m v m1 h => ?_, fun m v m1 h => ?_⟩
  · cases m with
    | none => simp [unwrap, hres, hdl, optional_sem, bind, Except.bind] at h
    | some y => exact ⟨some v, by simp [unwrap_assign, hres, hdl, optional_sem]⟩
  · cases m with
    | none => simp [unwrap_assign, hres, hdl, optional_sem] at h
    | some y =>
      simp [unwrap_assign, hres, hdl, optional_sem] at h
      subst h
      simp [unwrap, hres, hdl, optional_sem, bind, Except.bind, pure, Except.pure]
  · cases m with
    | none => simp [unwrap_assign, hres, hdl, optional_sem] at h
    | some y =>
      simp [unwrap_assign, hres, hdl, optional_sem] at h
      subst h
      simp [validate, hval, optional_sem]

/-- The raw pointer `int*` with its memory is a well-behaved container. -/
theorem pointer_lawful : Lawful int_pointer pointer_sem := by
  have hres : unwrap_resolve int_pointer = .selected .pointer := rfl
  have hval : validate_resolve int_pointer = .selected .bool_conversion := rfl
  refine ⟨fun m x v h => ?_, fun m v m1 h => ?_, fun m v m1 h => ?_⟩
  · obtain ⟨addr, mem⟩ := m
    cases addr with
    | none => simp [unwrap, hres, pointer_sem, bind, Except.bind, noexcept_boundary] at h
    | some a =>
      by_cases ha : a < mem.length
      · exact ⟨{ addr := some a, mem := mem.set a v },
          by simp [unwrap_assign, hres, pointer_sem, ha]⟩
      · simp [unwrap, hres, pointer_sem, bind, Except.bind, noexcept_boundary,
          List.getElem?_eq_none (Nat.le_of_not_lt ha)] at h
  · obtain ⟨addr, mem⟩ := m
    cases addr with
    | none => simp [unwrap_assign, hres, pointer_sem] at h
    | some a =>
      by_cases ha : a < mem.length
      · simp [unwrap_assign, hres, pointer_sem, ha] at h
        subst h
        simp [unwrap, hres, pointer_sem, bind, Except.bind, pure, Except.pure, ha,
          noexcept_boundary]
      · simp [unwrap_assign, hres, pointer_sem, ha] at h
  · obtain ⟨addr, mem⟩ := m
    cases addr with
    | none => simp [unwrap_assign, hres, pointer_sem] at h
    | some a =>
      by_cases ha : a < mem.length
      · simp [unwrap_assign, hres, pointer_sem, ha] at h
        subst h
        simp [validate, hval, pointer_sem]
      · simp [unwrap_assign, hres, pointer_sem, ha] at h

/-! ## The claims -/

/-- C1 (evaluation at the failing inputs): for a class that is dereferenceable
and iterable, and for one that has `value()` and is iterable, the call
`unwrap(m)` has two viable overloads and is ambiguous, so neither type is
`unwrappable` and evaluating the call is rejected at compile time. -/
theorem unwrap_ambiguous_for_iterable :
    unwrap_resolve iterable_dereferenceable = .ambiguous [.dereference, .range_view] ∧
    unwrap_resolve iterable_with_value = .ambiguous [.value_access, .range_view] ∧
    unwrappable iterable_dereferenceable = false ∧
    unwrappable iterable_with_value = false ∧
    (∀ (sem : Sem (List Int) Int Nat Nat) (m : List Int),
      unwrap iterable_dereferenceable sem m = .error (.ill_formed (.ambiguous .unwrap)) ∧
      unwrap iterable_with_value sem m = .error (.ill_formed (.ambiguous .unwrap))) := by
  refine ⟨by decide, by decide, by decide, by decide, fun sem m => ⟨rfl, rfl⟩⟩

/-- C2 (counterexample): a handle holding 5 is active and its payload accepts
an `int`; after one chain step with a transformation that returns -1 it holds
-1 and is inert. -/
theorem pipe_can_leave_value_inert :
    validate handle_int handle_sem 5 = .ok true ∧
    unwrap handle_int handle_sem 5 = .ok (.ref 5) ∧
    payload_assignable handle_int (some (id : Int → Int)).isSome = true ∧
    monas_pipe handle_int handle_sem (some id) (none : Option (Int → Int)) false
        (on_payload (fun _ => (-1 : Int))) 5 = .ok (-1, [.ref 5]) ∧
    validate handle_int handle_sem (-1) = .ok false :=
  ⟨rfl, rfl, rfl, rfl, rfl⟩

/-- C2 (amended): let a wrapped value be active (the type is not `maybe`, or
`validate` returns true) and hold the payload `x`, and let the result type of
the transformation be assignable to the payload location.  Then one chain step
invokes `f` exactly once, on `x`, and its outcome is that of assigning the
(converted) result through the reference that `unwrap` returns: the store
`*t = v`, or `t.value() = v` for the `value()` overload, behind the `noexcept`
of the step.  For the optional-like class and for the plain box the value then
holds the result and is still active. -/
theorem pipe_applies_once_and_rebinds {M P I S V : Type} (T : CppType) (sem : Sem M P I S)
    (c : V → P) (wc : Option (V → M)) (nothrow_r : Bool)
    (f : Extracted P I S → Except Failure V) (m : M) (x : P) (r : V)
    (hactive : maybe T = false ∨ validate T sem m = .ok true)
    (hx : unwrap T sem m = .ok (.ref x))
    (hf : f (.ref x) = .ok r) :
    monas_pipe T sem (some c) wc nothrow_r f m =
      noexcept_boundary nothrow_r
        (Except.map (fun m1 => (m1, [Extracted.ref x]))
          (if unwrap_resolve T = .selected .value_access then sem.value_assign m (c r)
           else sem.star_assign m (c r))) ∧
    (∀ (y : Int) (F : Int → Int) (wc1 : Option (Int → Option Int)) (b : Bool),
      monas_pipe optional_int optional_sem (some id) wc1 b (on_payload F) (some y) =
        .ok (some (F y), [.ref y]) ∧
      unwrap optional_int optional_sem (some (F y)) = .ok (.ref (F y)) ∧
      validate optional_int optional_sem (some (F y)) = .ok true) ∧
    (∀ (y : Int) (F : Int → Int) (wc1 : Option (Int → Int)) (b : Bool),
      maybe boxed_int = false ∧
      monas_pipe boxed_int boxed_sem (some id) wc1 b (on_payload F) y =
        .ok (F y, [.ref y]) ∧
      unwrap boxed_int boxed_sem (F y) = .ok (.ref (F y))) := by
  have general : ∀ {M P I S V : Type} (T : CppType) (sem : Sem M P I S)
      (c : V → P) (wc : Option (V → M)) (nothrow_r : Bool)
      (f : Extracted P I S → Except Failure V) (m : M) (x : P) (r : V),
      (maybe T = false ∨ validate T sem m = .ok true) →
      unwrap T sem m = .ok (.ref x) → f (.ref x) = .ok r →
      monas_pipe T sem (some c) wc nothrow_r f m =
        noexcept_boundary nothrow_r
          (Except.map (fun m1 => (m1, [Extracted.ref x]))
            (if unwrap_resolve T = .selected .value_access then sem.value_assign m (c r)
             else sem.star_assign m (c r))) := by
    intro M P I S V T sem c wc nothrow_r f m x r hactive hx hf
    obtain ⟨s, hs, hl, hi⟩ := unwrap_ref_selected hx
    have hstar : monas_star T sem m = .ok (.ref x) := by
      simp [monas_star, hs, hl, hx]
    have hunit := (unit_payload_path sem c wc m r hs hl hi).2
    have hasg : unwrap_assign T sem m (c r) =
        (if unwrap_resolve T = .selected .value_access then sem.value_assign m (c r)
         else sem.star_assign m (c r)) := by
      cases s with
      | pointer => simp [unwrap_assign, hs]
      | dereference =>
        have hd : deref_is_lvalue T = true := hi
        simp [unwrap_assign, hs, hd]
      | value_access =>
        have hv : value_is_lvalue T = true := hi
        simp [unwrap_assign, hs, hv]
      | range_view => simp [unwrap_impl.returns_lvalue] at hl
    have hstep : apply_and_rebind T sem (some c) wc f m =
        Except.map (fun m1 => (m1, [Extracted.ref x])) (unwrap_assign T sem m (c r)) := by
      simp only [apply_and_rebind, hstar, hf, hunit, bind, Except.bind, pure, Except.pure]
      cases unwrap_assign T sem m (c r) <;> rfl
    have hc := pipe_check_ok wc.isSome hs hl hi
    rw [← hasg, ← hstep]
    rcases hactive with hn | hv
    · simp [monas_pipe, hc, hn, bind, Except.bind]
    · by_cases hmb : maybe T = true
      · simp [monas_pipe, hc, hmb, monas_bool, hv, bind, Except.bind]
      · simp at hmb
        simp [monas_pipe, hc, hmb, bind, Except.bind]
  refine ⟨general T sem c wc nothrow_r f m x r hactive hx hf, fun y F wc1 b => ?_,
    fun y F wc1 b => ?_⟩
  · refine ⟨?_, rfl, rfl⟩
    rw [general optional_int optional_sem id wc1 b (on_payload F) (some y) y (F y)
      (Or.inr rfl) rfl rfl]
    cases b <;> rfl
  · refine ⟨by decide, ?_, rfl⟩
    rw [general boxed_int boxed_sem id wc1 b (on_payload F) y y (F y)
      (Or.inl (by decide)) rfl rfl]
    cases b <;> rfl

/-- C2, scenario 1: an optional-like value holding 5 chained with "multiply by
2" holds 10 and is active; the transformation ran once, on 5, and the step is
the store of 10 through `*t`. -/
theorem pipe_applies_once_and_rebinds_witness :
    monas_pipe optional_int optional_sem (some id) (some some) true
        (on_payload (fun n => 2 * n)) (some 5) = .ok (some 10, [.ref 5]) ∧
    validate optional_int optional_sem (some 10) = .ok true ∧
    monas_pipe optional_int optional_sem (some id) (some some) true
        (on_payload (fun n => 2 * n)) (some 5) =
      noexcept_boundary true
        (Except.map (fun m1 => (m1, [Extracted.ref 5]))
          (if unwrap_resolve optional_int = .selected .value_access
           then optional_sem.value_assign (some 5) (id (2 * 5))
           else optional_sem.star_assign (some 5) (id (2 * 5)))) :=
  ⟨rfl, rfl,
    (pipe_applies_once_and_rebinds optional_int optional_sem id (some some) true
      (on_payload (fun n => 2 * n)) (some 5) 5 (2 * 5) (Or.inr rfl) rfl rfl).1⟩

/-- C3 (evaluation at the failing input): an empty sequence is presence-aware
and inert, its presence test is false, yet chaining any transformation whose
result the sequence accepts is rejected at compile time, because the body of
`operator|` instantiates `monas::operator*`, whose `auto&` return type cannot
bind the `wrap_view` prvalue. -/
theorem pipe_on_empty_sequence_ill_formed :
    list vector_int = true ∧
    monas_bool vector_int vector_sem [] = .ok false ∧
    (∀ (nothrow_r : Bool) (f : Extracted Int Nat Nat → Except Failure (List Int))
        (fs : List (Extracted Int Nat Nat → Except Failure (List Int))),
      monas_chain vector_int vector_sem none (some id) nothrow_r (f :: fs) [] =
        .error (.ill_formed (.binds_rvalue .monas_star))) :=
  ⟨by decide, rfl, fun _ _ _ => rfl⟩

/-- C4: for an `unwrappable` container type, `unit(m, v)` assigns through the
extracted reference when the payload location accepts the type of `v`, and
then the outcome does not depend on whether or how the container itself could
be assigned; it assigns `v` to the whole container when the payload location
does not accept it but the container does; the call is never ambiguous and
the two overloads are never viable together. -/
theorem unit_prefers_payload {M P I S V : Type} (T : CppType) (sem : Sem M P I S)
    (pc : Option (V → P)) (wc : Option (V → M)) (m : M) (v : V)
    (hT : unwrappable T = true) :
    (payload_assignable T pc.isSome = true →
      unit_resolve T pc.isSome wc.isSome = .selected .payload ∧
      (∃ c, pc = some c ∧ unit T sem pc wc m v = unwrap_assign T sem m (c v)) ∧
      ∀ wc1 : Option (V → M), unit T sem pc wc1 m v = unit T sem pc wc m v) ∧
    (payload_assignable T pc.isSome = false → ∀ c, wc = some c →
      unit_resolve T pc.isSome wc.isSome = .selected .whole ∧
      unit T sem pc wc m v = .ok (c v)) ∧
    (∀ l, unit_resolve T pc.isSome wc.isSome ≠ .ambiguous l) ∧
    ¬ (unit_impl.viable T pc.isSome wc.isSome .payload = true ∧
       unit_impl.viable T pc.isSome wc.isSome .whole = true) := by
  refine ⟨fun hpa => ?_, fun hpa c hc => ?_, fun l => ?_, ?_⟩
  · have hr : ∀ wa, unit_resolve T pc.isSome wa = .selected .payload := by
      intro wa
      simp [unit_resolve, resolve, unit_impl.overloads, unit_impl.viable, hT, hpa, List.filter]
    have hsome : pc.isSome = true := by
      unfold payload_assignable at hpa
      split at hpa
      · simp at hpa; exact hpa.2
      · simp at hpa
    obtain ⟨c, rfl⟩ := Option.isSome_iff_exists.mp hsome
    have hu : ∀ wc1 : Option (V → M),
        unit T sem (some c) wc1 m v = unwrap_assign T sem m (c v) := by
      intro wc1
      have := hr wc1.isSome
      simp only [Option.isSome_some] at this
      simp [unit, this]
    exact ⟨hr _, ⟨c, rfl, hu wc⟩, fun wc1 => (hu wc1).trans (hu wc).symm⟩
  · subst hc
    have hr : unit_resolve T pc.isSome (some c).isSome = .selected .whole := by
      simp [unit_resolve, resolve, unit_impl.overloads, unit_impl.viable, hT, hpa, List.filter]
    refine ⟨hr, ?_⟩
    simp only [unit, hr]
    cases pc <;> rfl
  · cases hpa : payload_assignable T pc.isSome <;> cases hw : wc.isSome <;>
      simp [unit_resolve, resolve, unit_impl.overloads, unit_impl.viable, hT, hpa, hw,
        List.filter]
  · simp [unit_impl.viable]
    intro _ h
    simp [h]

/-- C4 on the scenario types: assigning an `int` to an optional-like value
goes through the payload (the object stays engaged and holds 7), assigning a
sequence to a sequence replaces the whole container. -/
theorem unit_prefers_payload_witness :
    (unit_resolve optional_int (some (id : Int → Int)).isSome
        (some (some : Int → Option Int)).isSome = .selected .payload ∧
      unit optional_int optional_sem (some id) (some some) (some 5) (7 : Int) =
        .ok (some 7)) ∧
    (unit_resolve vector_int (none : Option (List Int → Int)).isSome
        (some (id : List Int → List Int)).isSome = .selected .whole ∧
      unit vector_int vector_sem none (some id) [1, 2, 3] [1, 2, 3, 4] =
        .ok [1, 2, 3, 4]) :=
  ⟨⟨((unit_prefers_payload optional_int optional_sem (some id) (some some) (some 5) (7 : Int)
        (by decide)).1 (by decide)).1, rfl⟩,
    (unit_prefers_payload vector_int vector_sem (none : Option (List Int → Int)) (some id)
        [1, 2, 3] [1, 2, 3, 4] (by decide)).2.1 (by decide) id rfl⟩

/-- C5 (evaluation at the failing input): for the sequence `[1, 2, 3]` every
constraint of the chain step holds and the triad alone would work (`unwrap`
yields the view, `unit` replaces the whole container by `[1, 2, 3, 4]`), but the
chain step itself is ill-formed for every transformation: `monas::operator*`
returns `auto&` and cannot bind the `wrap_view` prvalue. -/
theorem pipe_on_sequence_ill_formed :
    unwrap vector_int vector_sem [1, 2, 3] = .ok (.view 0 3) ∧
    rewrappable vector_int false true = true ∧
    unit vector_int vector_sem none (some id) [1, 2, 3] [1, 2, 3, 4] = .ok [1, 2, 3, 4] ∧
    (∀ (m : List Int), monas_star vector_int vector_sem m =
        .error (.ill_formed (.binds_rvalue .monas_star))) ∧
    (∀ (nothrow_r : Bool) (f : Extracted Int Nat Nat → Except Failure (List Int)),
      monas_pipe vector_int vector_sem none (some id) nothrow_r f [1, 2, 3] =
        .error (.ill_formed (.binds_rvalue .monas_star))) :=
  ⟨rfl, by decide, rfl, fun _ => rfl, fun _ _ => rfl⟩

/-- C6 (evaluation at the failing input): for a class without conversion to
`bool` that has `bool has_value()` and a boolean emptiness test, the call
`validate(m)` has two viable overloads and is ambiguous; the type is
`unwrappable` but not `maybe`. -/
theorem validate_ambiguous_for_query_and_empty :
    unwrap_resolve query_and_empty = .selected .value_access ∧
    validate_resolve query_and_empty = .ambiguous [.has_value, .not_empty] ∧
    maybe query_and_empty = false ∧
    (∀ (sem : Sem (Bool × Bool) Int Unit Unit) (m : Bool × Bool),
      validate query_and_empty sem m = .error (.ill_formed (.ambiguous .validate))) :=
  ⟨by decide, by decide, by decide, fun _ _ => rfl⟩

/-- C7: for an `unwrappable` type with a conversion to `bool` and a
`has_value()` query, `validate` resolves to the conversion overload and returns
`bool(t)`; two values that agree on `bool(t)` get the same result, whatever
`has_value()` returns on them. -/
theorem validate_uses_bool_conversion {M P I S : Type} (T : CppType) (sem : Sem M P I S)
    (m1 m2 : M)
    (hT : unwrappable T = true) (hb : boolean_convertible T = true)
    (_hq : has_presence_query T = true) (hagree : sem.to_bool m1 = sem.to_bool m2) :
    validate_resolve T = .selected .bool_conversion ∧
    validate T sem m1 = sem.to_bool m1 ∧
    validate T sem m1 = validate T sem m2 := by
  have hr : validate_resolve T = .selected .bool_conversion := by
    simp [validate_resolve, resolve, validate_impl.overloads, validate_impl.viable, hT, hb,
      List.filter]
  refine ⟨hr, ?_, ?_⟩
  · simp [validate, hr]
  · simp [validate, hr, hagree]

/-- C7 on two objects whose `bool(t)` is true and whose `has_value()` answers
differ. -/
theorem validate_uses_bool_conversion_witness :
    two_flags_sem.has_value (true, true) ≠ two_flags_sem.has_value (true, false) ∧
    (validate_resolve two_flags = .selected .bool_conversion ∧
     validate two_flags two_flags_sem (true, true) = two_flags_sem.to_bool (true, true) ∧
     validate two_flags two_flags_sem (true, true) =
       validate two_flags two_flags_sem (true, false)) :=
  ⟨by simp [two_flags_sem],
    validate_uses_bool_conversion two_flags two_flags_sem (true, true) (true, false)
      (by decide) (by decide) (by decide) rfl⟩

/-- C8 (counterexample): `int` converts to `bool` but is not `unwrappable`, so
no overload of `validate` is viable for it; presence-checkability is not
decided by the presence mechanisms alone.  Moreover a range without a boolean
`std::ranges::empty` is iterable and `unwrappable`, and `validate` rejects it
too. -/
theorem validate_rejects_non_unwrappable :
    (boolean_convertible int_type = true ∧
      unwrappable int_type = false ∧
      validate_resolve int_type = .no_viable ∧
      ¬ ((validate_resolve int_type).is_selected = true ↔
          (boolean_convertible int_type = true ∨ has_presence_query int_type = true ∨
            ranges_range int_type = true))) ∧
    (ranges_range bare_range = true ∧
      unwrappable bare_range = true ∧
      validate_resolve bare_range = .no_viable) := by
  decide

/-- C8 (amended): leaving aside the types that have no conversion to `bool`
but both a boolean `has_value()` and a boolean emptiness test, `validate` is
applicable to `T` if and only if `T` is `unwrappable` and it converts to
`bool`, or has a boolean `has_value()`, or has a boolean
`std::ranges::empty`. -/
theorem validate_applicable_iff (T : CppType)
    (hslip : ¬ (boolean_convertible T = false ∧ has_presence_query T = true ∧
      has_empty_test T = true)) :
    (validate_resolve T).is_selected = true ↔
      (unwrappable T = true ∧
        (boolean_convertible T = true ∨ has_presence_query T = true ∨
          has_empty_test T = true)) := by
  simp only [validate_resolve, resolve, validate_impl.overloads, validate_impl.viable,
    List.filter]
  revert hslip
  generalize unwrappable T = u
  generalize boolean_convertible T = b
  generalize has_presence_query T = q
  generalize has_empty_test T = e
  cases u <;> cases b <;> cases q <;> cases e <;> decide

/-- C8 (amended) on the sequence class: it is `unwrappable` and has an
emptiness test, so `validate` applies to it. -/
theorem validate_applicable_iff_witness :
    (validate_resolve vector_int).is_selected = true ↔
      (unwrappable vector_int = true ∧
        (boolean_convertible vector_int = true ∨ has_presence_query vector_int = true ∨
          has_empty_test vector_int = true)) :=
  validate_applicable_iff vector_int (by decide)

/-- C9 (counterexample): a class that is neither a pointer nor a range, whose
`operator*` returns by value and which also has `value()`, satisfies the
constraint of the dereference overload, which is selected; its body returns
`*t` through `auto&` and does not compile, so `unwrap` does not return the
result of dereferencing. -/
theorem unwrap_rejects_by_value_dereference :
    is_pointer_v by_value_deref = false ∧
    ranges_range by_value_deref = false ∧
    weakly_indirectly_readable by_value_deref = true ∧
    has_value_access by_value_deref = true ∧
    unwrap_resolve by_value_deref = .selected .dereference ∧
    unwrappable by_value_deref = false ∧
    optional_sem.star (some 5) = .ok 5 ∧
    unwrap by_value_deref optional_sem (some 5) =
      .error (.ill_formed (.binds_rvalue .unwrap)) ∧
    unwrap by_value_deref optional_sem (some 5) ≠
      Except.map .ref (optional_sem.star (some 5)) := by
  refine ⟨rfl, rfl, rfl, rfl, by decide, by decide, rfl, rfl, ?_⟩
  intro h
  have h1 : unwrap by_value_deref optional_sem (some 5) =
      .error (.ill_formed (.binds_rvalue .unwrap)) := rfl
  rw [h1] at h
  cases h

/-- C9 (amended): for a type that is neither a pointer nor a range, `unwrap`
resolves to the dereference overload whenever the type is dereferenceable
(with or without `value()`), and to the `value()` overload when it is not
dereferenceable but has `value()`.  The call returns `*t`, respectively
`t.value()`, when that expression is an lvalue; when it is not, the selected
overload does not compile and the type is not `unwrappable`. -/
theorem unwrap_dereference_before_value {M P I S : Type} (T : CppType) (sem : Sem M P I S)
    (m : M) (hp : is_pointer_v T = false) (hr : ranges_range T = false) :
    (weakly_indirectly_readable T = true →
      unwrap_resolve T = .selected .dereference ∧
      (deref_is_lvalue T = true → unwrap T sem m = Except.map .ref (sem.star m)) ∧
      (deref_is_lvalue T = false →
        unwrap T sem m = .error (.ill_formed (.binds_rvalue .unwrap)) ∧
        unwrappable T = false)) ∧
    (weakly_indirectly_readable T = false → has_value_access T = true →
      unwrap_resolve T = .selected .value_access ∧
      (value_is_lvalue T = true → unwrap T sem m = Except.map .ref (sem.value m)) ∧
      (value_is_lvalue T = false →
        unwrap T sem m = .error (.ill_formed (.binds_rvalue .unwrap)) ∧
        unwrappable T = false)) := by
  cases T with
  | pointer p => simp [is_pointer_v] at hp
  | array e => simp [ranges_range] at hr
  | object mm =>
    obtain ⟨d, v, r, b, h, e, dl, vl⟩ := mm
    simp only [ranges_range] at hr
    subst hr
    refine ⟨fun hd => ?_, fun hd hv => ?_⟩
    · simp only [weakly_indirectly_readable] at hd
      subst hd
      have hres := unwrap_resolve_object_not_range true v b h e dl vl
      simp only [if_true] at hres
      exact ⟨hres, (unwrap_eq_of_selected _ sem m).2.1 hres,
        (unwrap_rejects_prvalue _ sem m).1 hres⟩
    · simp only [weakly_indirectly_readable] at hd
      simp only [has_value_access] at hv
      subst hd; subst hv
      have hres := unwrap_resolve_object_not_range false true b h e dl vl
      simp at hres
      exact ⟨hres, (unwrap_eq_of_selected _ sem m).2.2 hres,
        (unwrap_rejects_prvalue _ sem m).2 hres⟩

/-- C9 (amended) on the optional-like class, which has both `operator*` and
`value()`: extraction is the dereference, here of an object holding 5; on a
class with `value()` only: extraction is the call of `value()`; and on the
proxy class with a by-value `operator*`: the dereference overload is selected
and rejected. -/
theorem unwrap_dereference_before_value_witness :
    (has_value_access optional_int = true ∧
      unwrap_resolve optional_int = .selected .dereference ∧
      unwrap optional_int optional_sem (some 5) =
        Except.map .ref (optional_sem.star (some 5))) ∧
    (unwrap_resolve query_and_empty = .selected .value_access ∧
      unwrap query_and_empty optional_sem (some 5) =
        Except.map .ref (optional_sem.value (some 5))) ∧
    (unwrap_resolve by_value_deref = .selected .dereference ∧
      unwrap by_value_deref optional_sem (some 5) =
        .error (.ill_formed (.binds_rvalue .unwrap)) ∧
      unwrappable by_value_deref = false) :=
  have h1 := (unwrap_dereference_before_value optional_int optional_sem (some 5)
    (by decide) (by decide)).1 (by decide)
  have h2 := (unwrap_dereference_before_value query_and_empty optional_sem (some 5)
    (by decide) (by decide)).2 (by decide) (by decide)
  have h3 := (unwrap_dereference_before_value by_value_deref optional_sem (some 5)
    (by decide) (by decide)).1 (by decide)
  ⟨⟨rfl, h1.1, h1.2.1 (by decide)⟩, ⟨h2.1, h2.2.1 (by decide)⟩,
    ⟨h3.1, h3.2.2 (by decide)⟩⟩

/-- C10: for a raw pointer type `U*`, whatever `U` is, the pointer overload of
`unwrap` is the only viable one, it is selected, and the call returns the
result of the built-in indirection `*t` (behind the `noexcept` of that
overload); for an `int*` pointing at the cell that holds 4 this is 4. -/
theorem unwrap_pointer_only {M P I S : Type} (pointee : CppType) (sem : Sem M P I S) (m : M) :
    unwrap_impl.overloads.filter (unwrap_impl.viable (.pointer pointee)) = [.pointer] ∧
    unwrap_resolve (.pointer pointee) = .selected .pointer ∧
    unwrap (.pointer pointee) sem m =
      noexcept_boundary true (Except.map .ref (sem.star m)) ∧
    unwrap int_pointer pointer_sem { addr := some 1, mem := [3, 4] } =
      (.ok (.ref 4) : Except Failure (Extracted Int Unit Unit)) := by
  have h : unwrap_resolve (.pointer pointee) = .selected .pointer := rfl
  exact ⟨rfl, h, (unwrap_eq_of_selected _ sem m).1 h, rfl⟩

/-! ## Supporting lemmas for views and pipelines -/

/-- Traversing the storage of a sequence from position `k` to its length visits
the elements from `k` on, in order. -/
theorem traverse_vector (xs : List Int) :
    ∀ (n k : Nat), k + n = xs.length →
      traverse (vector_cursor xs) (n + 1) k xs.length = some (xs.drop k) := by
  intro n
  induction n with
  | zero =>
    intro k hk
    have : k = xs.length := by omega
    subst this
    simp [traverse, vector_cursor]
  | succ n ih =>
    intro k hk
    have hlt : k < xs.length := by omega
    have hne : k ≠ xs.length := by omega
    have hend : (vector_cursor xs).at_end k xs.length = false := by
      simp [vector_cursor, hne]
    have hnext : (vector_cursor xs).next k = k + 1 := rfl
    have hderef : (vector_cursor xs).deref k = xs[k] := by
      simp [vector_cursor, List.getD, List.getElem?_eq_getElem hlt]
    have hrec := ih (k + 1) (by omega)
    rw [traverse, hend, hnext, hderef, hrec, List.drop_eq_getElem_cons hlt]
    rfl

/-- One chain step on an active value of a well-behaved container: the step
succeeds, invokes `f` once on the payload, and the new state holds the
converted result. -/
theorem pipe_active_step {M P I S V : Type} (T : CppType) (sem : Sem M P I S)
    (c : V → P) (wc : Option (V → M)) (nothrow_r : Bool)
    (f : Extracted P I S → Except Failure V) (m : M) (x : P) (r : V)
    (hlaw : Lawful T sem)
    (hactive : maybe T = false ∨ validate T sem m = .ok true)
    (hx : unwrap T sem m = .ok (.ref x))
    (hf : f (.ref x) = .ok r) :
    ∃ m1, monas_pipe T sem (some c) wc nothrow_r f m = .ok (m1, [.ref x]) ∧
      unwrap T sem m1 = .ok (.ref (c r)) := by
  obtain ⟨s, hs, hl, hi⟩ := unwrap_ref_selected hx
  obtain ⟨m1, hm1⟩ := hlaw.store_defined m x (c r) hx
  have hstar : monas_star T sem m = .ok (.ref x) := by
    simp [monas_star, hs, hl, hx]
  have hunit := (unit_payload_path sem c wc m r hs hl hi).2
  have hstep : apply_and_rebind T sem (some c) wc f m = .ok (m1, [.ref x]) := by
    simp [apply_and_rebind, hstar, hf, hunit, hm1, bind, Except.bind, pure, Except.pure]
  refine ⟨m1, ?_, hlaw.store_read m (c r) m1 hm1⟩
  have hc := pipe_check_ok wc.isSome hs hl hi
  rcases hactive with hn | hv
  · simp [monas_pipe, hc, hn, hstep, bind, Except.bind, noexcept_boundary]
  · by_cases hmb : maybe T = true
    · simp [monas_pipe, hc, hmb, monas_bool, hv, hstep, bind, Except.bind, noexcept_boundary]
    · simp at hmb
      simp [monas_pipe, hc, hmb, hstep, bind, Except.bind, noexcept_boundary]

/-- The box is a well-behaved container. -/
theorem boxed_lawful : Lawful boxed_int boxed_sem := by
  have hdl : deref_is_lvalue boxed_int = true := rfl
  have hres : unwrap_resolve boxed_int = .selected .dereference := by decide
  refine ⟨fun m x v _ => ⟨v, ?_⟩, fun m v m1 h => ?_, fun m v m1 _ => rfl⟩
  · simp [unwrap_assign, hres, hdl, boxed_sem]
  · simp [unwrap_assign, hres, hdl, boxed_sem] at h
    subst h
    simp [unwrap, hres, hdl, boxed_sem, bind, Except.bind, pure, Except.pure]

/-- The presence test consults the three presence operations only. -/
theorem validate_congr {M P I S : Type} (T : CppType) (sem sem1 : Sem M P I S) (m : M)
    (hb : sem1.to_bool = sem.to_bool) (hq : sem1.has_value = sem.has_value)
    (he : sem1.empty = sem.empty) :
    validate T sem1 m = validate T sem m := by
  simp only [validate, hb, hq, he]

/-- The compile-time part of a chain step either passes or rejects the
program; it has no run-time failure. -/
theorem pipe_check_cases (T : CppType) (pa wa : Bool) :
    pipe_check T pa wa = .ok () ∨ ∃ d, pipe_check T pa wa = .error (.ill_formed d) := by
  unfold pipe_check
  generalize unwrap_resolve T = res
  cases unwrappable T <;> cases rewrappable T pa wa <;> simp
  rcases res with s | _ | l
  · cases s <;> simp [unwrap_impl.returns_lvalue, pure, Except.pure]
  · simp [rejected]
  · simp [rejected]

/-! ## The claims, continued -/

/-- C11: for a type that satisfies only iteration (no pointer, no dereference,
no `value()`), `unwrap` resolves to the range overload and yields a
`wrap_view` made of nothing but the iterator and the sentinel: its `begin()`
is `std::ranges::begin(t)` and its `end()` is `std::ranges::end(t)`, so a
traversal of the view is the traversal of the container; for the sequence
class it visits exactly the elements of the sequence, in order. -/
theorem unwrap_view_matches_container {M P I S : Type} (T : CppType) (sem : Sem M P I S)
    (m : M) (b : I) (e : S)
    (hp : is_pointer_v (decay T) = false) (hd : weakly_indirectly_readable T = false)
    (hv : has_value_access T = false) (hr : ranges_range T = true)
    (hb : sem.range_begin m = .ok b) (he : sem.range_end m = .ok e) :
    unwrap_resolve T = .selected .range_view ∧
    (∃ w : wrap_view I S, unwrap T sem m = .ok (Extracted.of_view w) ∧
      w.begin = b ∧ w.end_ = e ∧
      ∀ (E : Type) (ops : Cursor I S E) (fuel : Nat),
        traverse ops fuel w.begin w.end_ = traverse ops fuel b e) ∧
    (∀ xs : List Int, ∃ w : wrap_view Nat Nat,
      unwrap vector_int vector_sem xs = .ok (Extracted.of_view w) ∧
      traverse (vector_cursor xs) (xs.length + 1) w.begin w.end_ = some xs) := by
  have hres : unwrap_resolve T = .selected .range_view := by
    simp [unwrap_resolve, resolve, unwrap_impl.overloads, unwrap_impl.viable, hp, hd, hv, hr,
      List.filter]
  refine ⟨hres, ⟨⟨b, e⟩, ?_, rfl, rfl, fun _ _ _ => rfl⟩, fun xs => ?_⟩
  · simp [unwrap, hres, hb, he, Extracted.of_view, bind, Except.bind, pure, Except.pure]
  · refine ⟨⟨0, xs.length⟩, rfl, ?_⟩
    have h := traverse_vector xs xs.length 0 (by simp)
    simpa [wrap_view.begin, wrap_view.end_] using h

/-- C11 on the sequence `[1, 2, 3]`: the view is the pair of positions 0 and 3,
and traversing it visits 1, 2, 3. -/
theorem unwrap_view_matches_container_witness :
    unwrap vector_int vector_sem [1, 2, 3] =
      .ok (Extracted.of_view { it := 0, se := 3 }) ∧
    traverse (vector_cursor [1, 2, 3]) 4 0 3 = some [1, 2, 3] ∧
    unwrap_resolve vector_int = .selected .range_view ∧
    ∃ w : wrap_view Nat Nat,
      unwrap vector_int vector_sem [1, 2, 3] = .ok (Extracted.of_view w) ∧
      w.begin = 0 ∧ w.end_ = 3 ∧
      ∀ (E : Type) (ops : Cursor Nat Nat E) (fuel : Nat),
        traverse ops fuel w.begin w.end_ = traverse ops fuel 0 3 :=
  have h := unwrap_view_matches_container vector_int vector_sem [1, 2, 3] 0 3
    (by decide) (by decide) (by decide) (by decide) rfl rfl
  ⟨rfl, by decide, h.1, h.2.1⟩

/-- C12: for a non-null `int*` pointing at a cell that holds `n`, and every
function `F` on integers, one chain step stores `F n` in that cell, invokes
`F` once on `n`, leaves every other cell and the pointer itself unchanged, and
converting the wrapper back gives the same address. -/
theorem pipe_on_pointer_updates_pointee (a : Nat) (mem : List Int) (n : Int) (F : Int → Int)
    (wc : Option (Int → PointerState)) (nothrow_r : Bool)
    (hn : mem[a]? = some n) :
    monas_pipe int_pointer pointer_sem (some id) wc nothrow_r (on_payload F)
        { addr := some a, mem := mem } =
      .ok ({ addr := some a, mem := mem.set a (F n) }, [.ref n]) ∧
    pointer_sem.star { addr := some a, mem := mem.set a (F n) } = .ok (F n) ∧
    (monas_convert ({ addr := some a, mem := mem.set a (F n) } : PointerState)).addr = some a ∧
    ∀ b, b ≠ a → (mem.set a (F n))[b]? = mem[b]? := by
  have ha : a < mem.length := (List.getElem?_eq_some_iff.mp hn).1
  have hs : unwrap_resolve int_pointer = .selected .pointer := rfl
  have hc := pipe_check_ok wc.isSome hs rfl rfl
  have hm : maybe int_pointer = true := rfl
  have hv : validate_resolve int_pointer = .selected .bool_conversion := rfl
  have hunit := (unit_payload_path pointer_sem (id : Int → Int) wc
    ({ addr := some a, mem := mem } : PointerState) (F n) hs rfl rfl).2
  have hval : validate int_pointer pointer_sem { addr := some a, mem := mem } = .ok true := by
    simp [validate, hv, pointer_sem]
  have hstar : monas_star int_pointer pointer_sem { addr := some a, mem := mem } =
      .ok (.ref n) := by
    simp [monas_star, hs, unwrap_impl.returns_lvalue, unwrap, pointer_sem, hn, bind,
      Except.bind, pure, Except.pure, noexcept_boundary]
  have hasg : unit int_pointer pointer_sem (some id) wc { addr := some a, mem := mem } (F n) =
      .ok { addr := some a, mem := mem.set a (F n) } := by
    rw [hunit]
    simp [unwrap_assign, hs, pointer_sem, ha]
  refine ⟨?_, ?_, rfl, fun b hb => ?_⟩
  · simp [monas_pipe, hc, hm, monas_bool, hval, apply_and_rebind, hstar, on_payload, hasg,
      bind, Except.bind, pure, Except.pure, noexcept_boundary]
  · simp [pointer_sem, ha]
  · simp [List.getElem?_set, Ne.symm hb]

/-- C12, scenario 3: pointee 3 chained with "add 1" becomes 4, the pointer is
the same. -/
theorem pipe_on_pointer_updates_pointee_witness :
    monas_pipe int_pointer pointer_sem (some id) none false (on_payload (fun n => n + 1))
        { addr := some 0, mem := [3] } =
      .ok ({ addr := some 0, mem := [4] }, [.ref 3]) ∧
    (monas_pipe int_pointer pointer_sem (some id) none false (on_payload (fun n => n + 1))
        { addr := some 0, mem := [3] } =
      .ok ({ addr := some 0, mem := [3].set 0 (3 + 1) }, [.ref 3]) ∧
    pointer_sem.star { addr := some 0, mem := [3].set 0 (3 + 1) } = .ok (3 + 1) ∧
    (monas_convert ({ addr := some 0, mem := [3].set 0 (3 + 1) } : PointerState)).addr = some 0 ∧
    ∀ b, b ≠ 0 → ([3].set 0 (3 + 1) : List Int)[b]? = ([3] : List Int)[b]?) :=
  ⟨rfl, pipe_on_pointer_updates_pointee 0 [3] 3 (fun n => n + 1) none false rfl⟩

/-- C13: for a well-behaved container type that is not `maybe`, chaining `F`
and then `G` leaves the same payload as chaining the single transformation
that applies `F`, rebinds, and applies `G` (which is `G ∘ F` when the result
type is the payload type); `F` is invoked on `x` and `G` on the rebound
result of `F`. -/
theorem pipe_composition {M P I S V : Type} (T : CppType) (sem : Sem M P I S)
    (c : V → P) (wc : Option (V → M)) (nothrow_r : Bool) (F G : P → V) (m : M) (x : P)
    (hlaw : Lawful T sem) (hn : maybe T = false)
    (hx : unwrap T sem m = .ok (.ref x)) :
    ∃ m2 m3,
      monas_chain T sem (some c) wc nothrow_r [on_payload F, on_payload G] m =
        .ok (m2, [.ref x, .ref (c (F x))]) ∧
      monas_pipe T sem (some c) wc nothrow_r (on_payload (fun y => G (c (F y)))) m =
        .ok (m3, [.ref x]) ∧
      unwrap T sem m2 = .ok (.ref (c (G (c (F x))))) ∧
      unwrap T sem m3 = .ok (.ref (c (G (c (F x))))) := by
  obtain ⟨m1, h1, hx1⟩ := pipe_active_step T sem c wc nothrow_r (on_payload F) m x (F x) hlaw
    (Or.inl hn) hx rfl
  obtain ⟨m2, h2, hx2⟩ := pipe_active_step T sem c wc nothrow_r (on_payload G) m1 (c (F x))
    (G (c (F x))) hlaw (Or.inl hn) hx1 rfl
  obtain ⟨m3, h3, hx3⟩ := pipe_active_step T sem c wc nothrow_r
    (on_payload (fun y => G (c (F y)))) m x (G (c (F x))) hlaw (Or.inl hn) hx rfl
  refine ⟨m2, m3, ?_, h3, hx2, hx3⟩
  simp [monas_chain, h1, h2, bind, Except.bind, pure, Except.pure]

/-- C13 on a box holding 5: "add 1" then "double" gives 12, and so does the
combined transformation. -/
theorem pipe_composition_witness :
    monas_chain boxed_int boxed_sem (some id) (none : Option (Int → Int)) false
        [on_payload (fun n => n + 1), on_payload (fun n => 2 * n)] 5 =
      .ok (12, [.ref 5, .ref 6]) ∧
    monas_pipe boxed_int boxed_sem (some id) (none : Option (Int → Int)) false
        (on_payload (fun n => 2 * (n + 1))) 5 = .ok (12, [.ref 5]) ∧
    ∃ m2 m3,
      monas_chain boxed_int boxed_sem (some id) (none : Option (Int → Int)) false
          [on_payload (fun n => n + 1), on_payload (fun n => 2 * n)] 5 =
        .ok (m2, [.ref 5, .ref (id (5 + 1))]) ∧
      monas_pipe boxed_int boxed_sem (some id) (none : Option (Int → Int)) false
          (on_payload (fun y => 2 * id (y + 1))) 5 = .ok (m3, [.ref 5]) ∧
      unwrap boxed_int boxed_sem m2 = .ok (.ref (id (2 * id (5 + 1)))) ∧
      unwrap boxed_int boxed_sem m3 = .ok (.ref (id (2 * id (5 + 1)))) :=
  ⟨rfl, rfl, pipe_composition boxed_int boxed_sem id none false (fun n => n + 1) (fun n => 2 * n) 5 5
    boxed_lawful (by decide) rfl⟩

/-- C14 (evaluation at the failing input): for a class with a throwing
`value()` and no presence test, every constraint of the chain step holds and
`unwrap` on an object without content throws; with
`std::is_nothrow_invocable_r_v<bound_t, F, unwrap_t<bound_t>>` true the
step is declared `noexcept` and ends in `std::terminate`, with it false the
exception passes through. -/
theorem pipe_noexcept_terminates_on_throw :
    maybe value_only = false ∧
    pipe_check value_only true true = .ok () ∧
    unwrap value_only optional_sem none = .error (.thrown 0) ∧
    (∀ F : Int → Int,
      monas_pipe value_only optional_sem (some id) (some some) true (on_payload F) none =
        .error .terminated) ∧
    (∀ F : Int → Int,
      monas_pipe value_only optional_sem (some id) (some some) false (on_payload F) none =
        .error (.thrown 0)) :=
  ⟨by decide, rfl, rfl, fun _ => rfl, fun _ => rfl⟩

/-- C15: for a `maybe` type the boolean test of the wrapper is `validate` on the
wrapped value; its outcome is determined by the three `const` presence
operations alone, so it invokes no operation that could write to the wrapped
value. -/
theorem monas_bool_mirrors_validate {M P I S : Type} (T : CppType) (sem : Sem M P I S) (m : M)
    (hm : maybe T = true) :
    monas_bool T sem m = validate T sem m ∧
    ∀ sem1 : Sem M P I S, sem1.to_bool = sem.to_bool → sem1.has_value = sem.has_value →
      sem1.empty = sem.empty → monas_bool T sem1 m = monas_bool T sem m := by
  refine ⟨by simp [monas_bool, hm], fun sem1 hb hq he => ?_⟩
  simp [monas_bool, hm, validate_congr T sem sem1 m hb hq he]

/-- C15 on the optional-like class: the test is true on an object holding 5
and false on an empty one. -/
theorem monas_bool_mirrors_validate_witness :
    monas_bool optional_int optional_sem (some 5) = .ok true ∧
    monas_bool optional_int optional_sem none = .ok false ∧
    (monas_bool optional_int optional_sem (some 5) = validate optional_int optional_sem (some 5) ∧
    ∀ sem1 : Sem (Option Int) Int Unit Unit, sem1.to_bool = optional_sem.to_bool →
      sem1.has_value = optional_sem.has_value → sem1.empty = optional_sem.empty →
      monas_bool optional_int sem1 (some 5) = monas_bool optional_int optional_sem (some 5)) :=
  ⟨rfl, rfl, monas_bool_mirrors_validate optional_int optional_sem (some 5) (by decide)⟩

/-- C16: for a type whose extraction is the range overload, whatever the type
of the new value, the payload overload of `unit` is not viable and never
selected: `unit` assigns to the whole container when the container accepts
the value and is rejected at compile time otherwise. -/
theorem unit_never_payload_for_view {M P I S V : Type} (T : CppType) (sem : Sem M P I S)
    (pc : Option (V → P)) (wc : Option (V → M)) (m : M) (v : V)
    (hs : unwrap_resolve T = .selected .range_view) :
    payload_assignable T pc.isSome = false ∧
    unit_impl.viable T pc.isSome wc.isSome .payload = false ∧
    unit_resolve T pc.isSome wc.isSome ≠ .selected .payload ∧
    unit T sem pc wc m v =
      (match wc with
        | some c => .ok (c v)
        | none => .error (.ill_formed (.no_viable .unit))) := by
  have hu : unwrappable T = true := by simp [unwrappable, hs, unwrap_impl.instantiates]
  have hpa : payload_assignable T pc.isSome = false := by
    simp [payload_assignable, hs, unwrap_impl.returns_lvalue]
  have hr : unit_resolve T pc.isSome wc.isSome =
      if wc.isSome then .selected .whole else .no_viable := by
    cases hw : wc.isSome <;>
      simp [unit_resolve, resolve, unit_impl.overloads, unit_impl.viable, hu, hpa, hw,
        List.filter]
  refine ⟨hpa, by simp [unit_impl.viable, hpa], ?_, ?_⟩
  · rw [hr]
    cases wc.isSome <;> simp
  · cases wc with
    | none =>
      simp only [Option.isSome_none] at hr
      simp only [unit, Option.isSome_none, hr]
      cases pc <;> rfl
    | some c =>
      simp only [Option.isSome_some] at hr
      simp only [unit, Option.isSome_some, hr]
      cases pc <;> rfl

/-- C16 on the sequence class: even with a value type that an element could
be assigned from, `unit` replaces the whole sequence. -/
theorem unit_never_payload_for_view_witness :
    (payload_assignable vector_int (some (fun xs : List Int => xs.length)).isSome = false ∧
    unit_impl.viable vector_int (some (fun xs : List Int => xs.length)).isSome
      (some (id : List Int → List Int)).isSome .payload = false ∧
    unit_resolve vector_int (some (fun xs : List Int => xs.length)).isSome
      (some (id : List Int → List Int)).isSome ≠ .selected .payload ∧
    unit vector_int vector_sem (some (fun xs : List Int => (xs.length : Int))) (some id)
        [1, 2, 3] [1, 2, 3, 4] =
      (match (some id : Option (List Int → List Int)) with
        | some c => .ok (c [1, 2, 3, 4])
        | none => .error (.ill_formed (.no_viable .unit)))) :=
  unit_never_payload_for_view vector_int vector_sem (some (fun xs : List Int => (xs.length : Int))) (some id)
    [1, 2, 3] [1, 2, 3, 4] rfl

/-- C17: in a chain step on a `maybe` type, when `validate` returns false the
step is not undefined, it returns the value as it is with no invocation, and
its outcome does not depend on the extraction operations at all; the
transformation is invoked only if `validate` returned true; and the step is
undefined only if `validate` returned true or is itself undefined. -/
theorem pipe_extracts_only_after_check {M P I S V : Type} (T : CppType) (sem : Sem M P I S)
    (pc : Option (V → P)) (wc : Option (V → M)) (nothrow_r : Bool)
    (f : Extracted P I S → Except Failure V) (m : M)
    (hm : maybe T = true) :
    (validate T sem m = .ok false →
      monas_pipe T sem pc wc nothrow_r f m ≠ .error .undefined ∧
      (∀ m1 calls, monas_pipe T sem pc wc nothrow_r f m = .ok (m1, calls) →
        m1 = m ∧ calls = []) ∧
      ∀ sem1 : Sem M P I S, sem1.to_bool = sem.to_bool → sem1.has_value = sem.has_value →
        sem1.empty = sem.empty →
        monas_pipe T sem1 pc wc nothrow_r f m = monas_pipe T sem pc wc nothrow_r f m) ∧
    (∀ m1 calls, monas_pipe T sem pc wc nothrow_r f m = .ok (m1, calls) → calls ≠ [] →
      validate T sem m = .ok true) ∧
    (monas_pipe T sem pc wc nothrow_r f m = .error .undefined →
      validate T sem m = .ok true ∨ validate T sem m = .error .undefined) := by
  have hpipe : ∀ sem0 : Sem M P I S, validate T sem0 m = .ok false →
      monas_pipe T sem0 pc wc nothrow_r f m =
        (pipe_check T pc.isSome wc.isSome).map (fun _ => (m, [])) := by
    intro sem0 hv
    cases hc : pipe_check T pc.isSome wc.isSome <;>
      simp [monas_pipe, hc, hm, monas_bool, hv, bind, Except.bind, noexcept_boundary, pure,
        Except.pure, Except.map]
  have hcheck : ∀ u : Unit, pipe_check T pc.isSome wc.isSome ≠ .error .undefined := by
    intro _ h
    rcases pipe_check_cases T pc.isSome wc.isSome with h1 | ⟨d, h1⟩ <;> simp [h1] at h
  refine ⟨fun hv => ⟨?_, ?_, ?_⟩, ?_, ?_⟩
  · rw [hpipe sem hv]
    cases hc : pipe_check T pc.isSome wc.isSome with
    | error e =>
      intro h
      simp [Except.map] at h
      exact hcheck () (by rw [hc, h])
    | ok _ => simp [Except.map]
  · intro m1 calls h
    rw [hpipe sem hv] at h
    cases hc : pipe_check T pc.isSome wc.isSome with
    | error e => simp [hc, Except.map] at h
    | ok _ =>
      simp [hc, Except.map] at h
      exact ⟨h.1.symm, h.2⟩
  · intro sem1 hb hq he
    rw [hpipe sem hv, hpipe sem1 ((validate_congr T sem sem1 m hb hq he).trans hv)]
  · intro m1 calls h hne
    cases hv : validate T sem m with
    | error e =>
      exfalso
      cases hc : pipe_check T pc.isSome wc.isSome <;>
        cases e <;>
        simp [monas_pipe, hc, hm, monas_bool, hv, bind, Except.bind, noexcept_boundary] at h
      all_goals (cases nothrow_r <;> simp at h)
    | ok b =>
      cases b with
      | true => rfl
      | false =>
        exfalso
        rw [hpipe sem hv] at h
        cases hc : pipe_check T pc.isSome wc.isSome <;> simp [hc, Except.map] at h
        exact hne h.2
  · intro h
    cases hv : validate T sem m with
    | error e =>
      right
      cases hc : pipe_check T pc.isSome wc.isSome with
      | error e1 =>
        exfalso
        simp [monas_pipe, hc, bind, Except.bind] at h
        exact hcheck () (by rw [hc, h])
      | ok _ =>
        cases e <;>
          simp [monas_pipe, hc, hm, monas_bool, hv, bind, Except.bind, noexcept_boundary] at h ⊢
        cases nothrow_r <;> simp at h
    | ok b =>
      cases b with
      | true => exact Or.inl rfl
      | false =>
        exfalso
        rw [hpipe sem hv] at h
        cases hc : pipe_check T pc.isSome wc.isSome with
        | error e1 =>
          simp [hc, Except.map] at h
          exact hcheck () (by rw [hc, h])
        | ok _ => simp [hc, Except.map] at h

/-- C17 on a null `int*` and on an empty optional-like object, whose
indirection is undefined: the chain step returns them unchanged. -/
theorem pipe_extracts_only_after_check_witness :
    pointer_sem.star { addr := none, mem := [3] } = .error .undefined ∧
    monas_pipe int_pointer pointer_sem (some id) (none : Option (Int → PointerState)) false
        (on_payload (fun n => n + 1)) { addr := none, mem := [3] } =
      .ok ({ addr := none, mem := [3] }, []) ∧
    optional_sem.star none = .error .undefined ∧
    monas_pipe optional_int optional_sem (some id) (some some) true
        (on_payload (fun n => 2 * n)) none = .ok (none, []) ∧
    monas_pipe int_pointer pointer_sem (some id) (none : Option (Int → PointerState)) false
        (on_payload (fun n => n + 1)) { addr := none, mem := [3] } ≠ .error .undefined ∧
    monas_pipe optional_int optional_sem (some id) (some some) true
        (on_payload (fun n => 2 * n)) none ≠ .error .undefined :=
  ⟨rfl, rfl, rfl, rfl,
    ((pipe_extracts_only_after_check int_pointer pointer_sem (some id) none false
      (on_payload (fun n => n + 1)) { addr := none, mem := [3] } rfl).1 rfl).1,
    ((pipe_extracts_only_after_check optional_int optional_sem (some id) (some some) true
      (on_payload (fun n => 2 * n)) none (by decide)).1 rfl).1⟩

end harmony
